import Mathlib

/-!
Verification of the command-execution core of `linux.py` (a Streamlit
"Linux Command Explorer").  The embedded functions are:

* `get_bin_commands` — scans fixed binary directories for executable files;
* `get_command_help` — best-effort help lookup trying several help flags;
* `run_command_safe` — denylist check, safe-flag rewrite, bounded execution.

Filesystem access and subprocess execution are modelled by explicit
oracles (`FS`, and a function `String → Nat → RunOutcome`), so the pure
control logic of the Python source is captured exactly.
-/

/-- Word splitting as performed by Python `str.split()` with no argument:
split on runs of whitespace, discarding empty pieces.  The accumulator
`cur` holds the current word reversed. -/
def pyWordsAux : List Char → List Char → List String
  | cur, [] => if cur.isEmpty then [] else [String.mk cur.reverse]
  | cur, c :: cs =>
    if c.isWhitespace then
      if cur.isEmpty then pyWordsAux [] cs
      else String.mk cur.reverse :: pyWordsAux [] cs
    else pyWordsAux (c :: cur) cs

/-- Python `command.split()`. -/
def pyWords (s : String) : List String :=
  pyWordsAux [] s.data

/-- The denylist from `run_command_safe` (`dangerous_commands` in the source). -/
def dangerous_commands : List String :=
  ["rm", "rmdir", "del", "format", "fdisk", "mkfs",
   "dd", "shred", "wipe", "halt", "shutdown", "reboot",
   "init", "kill", "killall", "pkill", "fuser"]

/-- The safe-flag substitution table from `run_command_safe`
(`safe_commands` in the source). -/
def safe_commands : List (String × String) :=
  [("ls", "ls -la"), ("ps", "ps aux"), ("df", "df -h"),
   ("du", "du -h --max-depth=1"), ("free", "free -h"),
   ("top", "top -b -n1"), ("netstat", "netstat -tuln"), ("ss", "ss -tuln")]

/-- Outcome of one `subprocess.run(cmd, shell=True, capture_output=True,
text=True, timeout=t)` call: normal termination with an exit code and
captured output, `subprocess.TimeoutExpired`, or any other exception
carrying the text of `str(e)`. -/
inductive RunOutcome where
  | completed (returncode : Int) (stdout stderr : String)
  | timedOut
  | error (msg : String)
deriving DecidableEq

/-- How `run_command_safe` converts a subprocess outcome into its
`(success, stdout, stderr)` triple: lines 150-163 of the source.  A normal
termination yields `(True, result.stdout, result.stderr)` whatever the
exit code; `TimeoutExpired` yields `(False, "", "Command timed out")`;
any other exception yields `(False, "", "Error: " ++ str(e))`. -/
def mapOutcome : RunOutcome → Bool × String × String
  | .completed _ out err => (true, out, err)
  | .timedOut => (false, "", "Command timed out")
  | .error msg => (false, "", "Error: " ++ msg)

/-- `run_command_safe(command, timeout)` from the source, with subprocess
execution abstracted as the oracle `os : String → Nat → RunOutcome`.
`command.split()[0]` raises `IndexError` on a whitespace-only line, which
the generic handler of the source turns into
`(False, "", "Error: list index out of range")`. -/
def run_command_safe (os : String → Nat → RunOutcome)
    (command : String) (timeout : Nat) : Bool × String × String :=
  match (pyWords command).head? with
  | none => (false, "", "Error: list index out of range")
  | some base_cmd =>
    if base_cmd ∈ dangerous_commands then
      (false, "Command blocked for safety reasons", "")
    else
      let command2 :=
        match safe_commands.lookup base_cmd with
        | some safe => if command = base_cmd then safe else command
        | none => command
      mapOutcome (os command2 timeout)

/-- The command line `run_command_safe` actually hands to the subprocess
layer, when it hands over one at all: `none` when the line has no first
token or the first token is denylisted. -/
def effective_command (command : String) : Option String :=
  match (pyWords command).head? with
  | none => none
  | some base_cmd =>
    if base_cmd ∈ dangerous_commands then none
    else some
      (match safe_commands.lookup base_cmd with
       | some safe => if command = base_cmd then safe else command
       | none => command)

/-- The ordered help flags tried by `get_command_help`
(`help_options` in the source). -/
def help_options : List String := ["--help", "-h", "help"]

/-- The command line built for one help attempt: `help <command>` for the
shell builtin form, `<command> <opt>` otherwise. -/
def helpCmd (command help_opt : String) : String :=
  if help_opt = "help" then "help " ++ command else command ++ " " ++ help_opt

/-- Truthiness of Python `s.strip()`: the stripped string is non-empty
exactly when s holds at least one non-whitespace character. -/
def hasContent (s : String) : Bool :=
  s.data.any fun c => !c.isWhitespace

/-- The loop body of `get_command_help`: for each help flag in order, run
the attempt under timeout 5; on a normal termination with exit code 0 and
non-blank stdout return that stdout, else on non-blank stderr return that
stderr, else (including timeout or exception) move on; after all flags
fail return the fixed fallback. -/
def helpLoop (os : String → Nat → RunOutcome) (command : String) :
    List String → String
  | [] => "No help information available"
  | help_opt :: rest =>
    match os (helpCmd command help_opt) 5 with
    | .completed rc out err =>
      if rc = 0 ∧ hasContent out = true then out
      else if hasContent err = true then err
      else helpLoop os command rest
    | .timedOut => helpLoop os command rest
    | .error _ => helpLoop os command rest

/-- `get_command_help(command)` from the source. -/
def get_command_help (os : String → Nat → RunOutcome) (command : String) :
    String :=
  helpLoop os command help_options

/-- Outcome of one `os.listdir(bin_path)` call: a successful listing, a
`PermissionError` (the only exception the source catches, line 87), or
any other exception — e.g. `NotADirectoryError` when the candidate path
exists as a regular file — which the source does not catch, so it
propagates out of `get_bin_commands`. -/
inductive ListdirResult where
  | ok (entries : List String)
  | permissionError
  | otherError (msg : String)
deriving DecidableEq

/-- Filesystem oracle for `get_bin_commands`: the `os.path.exists` test,
the `os.listdir` outcome, and the `os.path.isfile` / `os.access(_, X_OK)`
tests on full paths. -/
structure FS where
  pathExists : String → Bool
  listdir : String → ListdirResult
  isfile : String → Bool
  accessX : String → Bool

/-- The fixed candidate directories (`bin_paths` in the source). -/
def bin_paths : List String :=
  ["/bin", "/usr/bin", "/usr/local/bin", "/sbin", "/usr/sbin"]

/-- The per-entry keep test of `get_bin_commands`: regular file and
executable by the current process. -/
def keepEntry (fs : FS) (bin_path item : String) : Bool :=
  fs.isfile (bin_path ++ "/" ++ item) && fs.accessX (bin_path ++ "/" ++ item)

/-- The inner loop of `get_bin_commands`: add every kept entry of one
successful directory listing to the accumulated set. -/
def scanDir (fs : FS) (bin_path : String) (entries : List String)
    (acc : Finset String) : Finset String :=
  entries.foldl
    (fun commands item =>
      if keepEntry fs bin_path item then insert item commands else commands)
    acc

/-- The directory loop of `get_bin_commands`: skip a candidate that does
not exist, scan a successful listing, skip a `PermissionError`
(`except PermissionError: continue`), and let any other listing exception
propagate, aborting the whole scan. -/
def scanAll (fs : FS) : List String → Finset String →
    Except String (Finset String)
  | [], commands => Except.ok commands
  | bin_path :: rest, commands =>
    if fs.pathExists bin_path then
      match fs.listdir bin_path with
      | .ok entries => scanAll fs rest (scanDir fs bin_path entries commands)
      | .permissionError => scanAll fs rest commands
      | .otherError msg => Except.error msg
    else scanAll fs rest commands

/-- `get_bin_commands()` from the source: accumulate a set over the
candidate directories and return `sorted(list(commands))`; an uncaught
listing exception makes the whole call fail with that exception. -/
def get_bin_commands (fs : FS) : Except String (List String) :=
  (scanAll fs bin_paths ∅).map fun commands => commands.sort (· ≤ ·)

theorem pyWordsAux_all_ws (cs : List Char)
    (h : ∀ c ∈ cs, c.isWhitespace = true) : pyWordsAux [] cs = [] := by
  induction cs with
  | nil => rfl
  | cons c cs ih =>
    have hc := h c (List.mem_cons_self c cs)
    simp only [pyWordsAux, hc, if_true, List.isEmpty_nil, ite_true]
    exact ih fun d hd => h d (List.mem_cons_of_mem c hd)

theorem run_noToken (os : String → Nat → RunOutcome) (command : String)
    (t : Nat) (h : (pyWords command).head? = none) :
    run_command_safe os command t =
      (false, "", "Error: list index out of range") := by
  unfold run_command_safe
  rw [h]

theorem run_refused (os : String → Nat → RunOutcome) (command tok : String)
    (t : Nat) (h1 : (pyWords command).head? = some tok)
    (h2 : tok ∈ dangerous_commands) :
    run_command_safe os command t =
      (false, "Command blocked for safety reasons", "") := by
  unfold run_command_safe
  rw [h1]
  simp [h2]

theorem effective_command_some (command tok : String)
    (h1 : (pyWords command).head? = some tok)
    (h2 : tok ∉ dangerous_commands) :
    ∃ c, effective_command command = some c := by
  unfold effective_command
  rw [h1]
  simp [h2]

theorem run_effective (os : String → Nat → RunOutcome) (command c : String)
    (t : Nat) (h : effective_command command = some c) :
    run_command_safe os command t = mapOutcome (os c t) := by
  unfold effective_command at h
  unfold run_command_safe
  cases htok : (pyWords command).head? with
  | none => rw [htok] at h; simp at h
  | some base_cmd =>
    rw [htok] at h
    dsimp only at h ⊢
    by_cases hd : base_cmd ∈ dangerous_commands
    · simp [hd] at h
    · rw [if_neg hd] at h
      rw [if_neg hd]
      rw [Option.some.injEq] at h
      rw [h]

theorem run_lookup (os : String → Nat → RunOutcome) (command name safe : String)
    (t : Nat) (h1 : (pyWords command).head? = some name)
    (hnd : name ∉ dangerous_commands)
    (hlook : safe_commands.lookup name = some safe) :
    run_command_safe os command t =
      mapOutcome (os (if command = name then safe else command) t) := by
  unfold run_command_safe
  rw [h1]
  dsimp only
  rw [if_neg hnd, hlook]

/-- Oracle in which every subprocess completes silently with exit code 0. -/
def osA : String → Nat → RunOutcome := fun _ _ => RunOutcome.completed 0 "" ""

/-- Oracle echoing the executed command line back on stdout, exposing which
command line was handed to the subprocess layer. -/
def osEcho : String → Nat → RunOutcome := fun c _ => RunOutcome.completed 0 c ""

/-- Oracle in which every subprocess exceeds the timeout. -/
def osT : String → Nat → RunOutcome := fun _ _ => RunOutcome.timedOut

/-- Oracle in which every spawn attempt raises an exception. -/
def osE : String → Nat → RunOutcome := fun _ _ => RunOutcome.error "spawn failed"

/-- C1: a command line whose first whitespace-delimited token is in the
denylist is refused with the fixed message, with the same result for every
subprocess oracle (so no process is spawned), whatever the later tokens;
conversely a first token outside the denylist never yields the refusal
triple, even if denylisted names occur later in the line. -/
theorem claim_C1 (command tok : String)
    (h : (pyWords command).head? = some tok) :
    (tok ∈ dangerous_commands →
      ∀ os t, run_command_safe os command t =
        (false, "Command blocked for safety reasons", ""))
    ∧ (tok ∉ dangerous_commands →
      ∀ os t, run_command_safe os command t ≠
        (false, "Command blocked for safety reasons", "")) := by
  constructor
  · intro h2 os t
    exact run_refused os command tok t h h2
  · intro h2 os t
    obtain ⟨c, hc⟩ := effective_command_some command tok h h2
    rw [run_effective os command c t hc]
    cases os c t <;> simp [mapOutcome]

theorem claim_C1_witness :
    run_command_safe osA "rm -rf /" 10 =
      (false, "Command blocked for safety reasons", "")
    ∧ run_command_safe osA "echo rm" 10 ≠
      (false, "Command blocked for safety reasons", "") :=
  ⟨(claim_C1 "rm -rf /" "rm" rfl).1 (by decide) osA 10,
   (claim_C1 "echo rm" "echo" rfl).2 (by decide) osA 10⟩

/-- C2: for every entry of the safe-flag table, the bare program name runs
the mapped safer command line, while any command line with that first
token and anything more runs exactly as supplied. -/
theorem claim_C2 (name safe : String) (h : (name, safe) ∈ safe_commands) :
    (∀ os t, run_command_safe os name t = mapOutcome (os safe t))
    ∧ (∀ command os t, (pyWords command).head? = some name →
        command ≠ name →
        run_command_safe os command t = mapOutcome (os command t)) := by
  simp only [safe_commands, List.mem_cons, List.not_mem_nil, or_false,
    Prod.mk.injEq] at h
  obtain h | h | h | h | h | h | h | h := h <;>
    obtain ⟨rfl, rfl⟩ := h <;>
    refine ⟨fun os t => rfl, fun command os t h1 h2 => ?_⟩ <;>
    rw [run_lookup os command _ _ t h1 (by decide) rfl, if_neg h2]

theorem claim_C2_witness :
    run_command_safe osEcho "ls" 10 = (true, "ls -la", "")
    ∧ run_command_safe osEcho "ls -1" 10 = (true, "ls -1", "") :=
  ⟨((claim_C2 "ls" "ls -la" (by decide)).1 osEcho 10).trans rfl,
   ((claim_C2 "ls" "ls -la" (by decide)).2 "ls -1" osEcho 10 rfl
     (by decide)).trans rfl⟩

/-- C3: whenever the denylist check passes (an effective command line is
handed to the subprocess layer) and the subprocess terminates normally
within the timeout, the result is the success triple carrying stdout and
stderr, whatever the exit code. -/
theorem claim_C3 (os : String → Nat → RunOutcome) (command c : String)
    (t : Nat) (rc : Int) (out err : String)
    (h1 : effective_command command = some c)
    (h2 : os c t = RunOutcome.completed rc out err) :
    run_command_safe os command t = (true, out, err) := by
  rw [run_effective os command c t h1, h2]
  rfl

theorem claim_C3_witness :
    run_command_safe (fun _ _ => RunOutcome.completed 7 "hi" "oops")
      "echo hi" 10 = (true, "hi", "oops") :=
  claim_C3 (fun _ _ => RunOutcome.completed 7 "hi" "oops")
    "echo hi" "echo hi" 10 7 "hi" "oops" rfl rfl

/-- C4: for a command line not refused by the denylist, a timeout of the
spawned subprocess yields exactly Failed("Command timed out"), any other
invocation error with message m yields exactly Failed("Error: " ++ m), and
every non-success result is of one of those two forms. -/
theorem claim_C4 (command : String) (t : Nat)
    (hnr : ∀ tok, (pyWords command).head? = some tok →
      tok ∉ dangerous_commands) :
    (∀ os c, effective_command command = some c →
      os c t = RunOutcome.timedOut →
      run_command_safe os command t = (false, "", "Command timed out"))
    ∧ (∀ os c msg, effective_command command = some c →
      os c t = RunOutcome.error msg →
      run_command_safe os command t = (false, "", "Error: " ++ msg))
    ∧ (∀ os, (run_command_safe os command t).1 = false →
      run_command_safe os command t = (false, "", "Command timed out")
      ∨ ∃ msg, run_command_safe os command t =
          (false, "", "Error: " ++ msg)) := by
  refine ⟨fun os c h1 h2 => by rw [run_effective os command c t h1, h2]; rfl,
    fun os c msg h1 h2 => by rw [run_effective os command c t h1, h2]; rfl,
    fun os hfalse => ?_⟩
  cases htok : (pyWords command).head? with
  | none =>
    exact Or.inr ⟨"list index out of range", run_noToken os command t htok⟩
  | some tok =>
    obtain ⟨c, hc⟩ := effective_command_some command tok htok (hnr tok htok)
    rw [run_effective os command c t hc] at hfalse ⊢
    cases h' : os c t with
    | completed rc out err => rw [h'] at hfalse; simp [mapOutcome] at hfalse
    | timedOut => exact Or.inl rfl
    | error msg => exact Or.inr ⟨msg, rfl⟩

theorem claim_C4_witness :
    run_command_safe osT "sleep 99" 10 = (false, "", "Command timed out")
    ∧ run_command_safe osE "sleep 99" 10 =
        (false, "", "Error: " ++ "spawn failed") := by
  have hnr : ∀ tok, (pyWords "sleep 99").head? = some tok →
      tok ∉ dangerous_commands := by
    intro tok h
    rw [show (pyWords "sleep 99").head? = some "sleep" from rfl] at h
    injection h with h
    subst h
    decide
  exact ⟨(claim_C4 "sleep 99" 10 hnr).1 osT "sleep 99" rfl rfl,
    (claim_C4 "sleep 99" 10 hnr).2.1 osE "sleep 99" "spawn failed" rfl rfl⟩

/-- C5: on every input string, timeout and subprocess oracle, the executor
returns one of the three typed outcomes (refusal, success, or a failure
with its message in the stderr slot); no input escapes this classification,
so nothing propagates across the boundary. -/
theorem claim_C5 (os : String → Nat → RunOutcome) (command : String)
    (t : Nat) :
    run_command_safe os command t =
      (false, "Command blocked for safety reasons", "")
    ∨ (∃ out err, run_command_safe os command t = (true, out, err))
    ∨ (∃ msg, run_command_safe os command t = (false, "", msg)) := by
  cases htok : (pyWords command).head? with
  | none =>
    exact Or.inr (Or.inr ⟨_, run_noToken os command t htok⟩)
  | some tok =>
    by_cases hd : tok ∈ dangerous_commands
    · exact Or.inl (run_refused os command tok t htok hd)
    · obtain ⟨c, hc⟩ := effective_command_some command tok htok hd
      rw [run_effective os command c t hc]
      cases os c t with
      | completed rc out err => exact Or.inr (Or.inl ⟨out, err, rfl⟩)
      | timedOut => exact Or.inr (Or.inr ⟨_, rfl⟩)
      | error msg => exact Or.inr (Or.inr ⟨_, rfl⟩)

/-- C9: on an empty or whitespace-only command line the executor neither
refuses nor consults the subprocess oracle: for every oracle and timeout
it returns the fixed triple (False, "", "Error: list index out of range")
produced by the caught IndexError. -/
theorem claim_C9 (command : String)
    (h : ∀ c ∈ command.data, c.isWhitespace = true) :
    ∀ os t, run_command_safe os command t =
      (false, "", "Error: list index out of range") := by
  intro os t
  apply run_noToken
  have h0 : pyWords command = [] := pyWordsAux_all_ws command.data h
  rw [h0]
  rfl

theorem claim_C9_witness :
    run_command_safe osA "  " 10 =
      (false, "", "Error: list index out of range") :=
  claim_C9 "  " (by decide) osA 10

/-- C10: a denylist refusal places its message in the stdout slot of the
result triple with an empty stderr slot, while timeout and spawn-error
outcomes place their message in the stderr slot with an empty stdout
slot. -/
theorem claim_C10 (t : Nat) :
    (∀ os command tok, (pyWords command).head? = some tok →
      tok ∈ dangerous_commands →
      (run_command_safe os command t).2.1 = "Command blocked for safety reasons"
      ∧ (run_command_safe os command t).2.2 = "")
    ∧ (∀ os command c, effective_command command = some c →
      os c t = RunOutcome.timedOut →
      (run_command_safe os command t).2.1 = ""
      ∧ (run_command_safe os command t).2.2 = "Command timed out")
    ∧ (∀ os command c msg, effective_command command = some c →
      os c t = RunOutcome.error msg →
      (run_command_safe os command t).2.1 = ""
      ∧ (run_command_safe os command t).2.2 = "Error: " ++ msg) := by
  refine ⟨fun os command tok h1 h2 => ?_, fun os command c h1 h2 => ?_,
    fun os command c msg h1 h2 => ?_⟩
  · rw [run_refused os command tok t h1 h2]
    exact ⟨rfl, rfl⟩
  · rw [run_effective os command c t h1, h2]
    exact ⟨rfl, rfl⟩
  · rw [run_effective os command c t h1, h2]
    exact ⟨rfl, rfl⟩

theorem claim_C10_witness :
    ((run_command_safe osA "rm -rf /" 10).2.1 =
        "Command blocked for safety reasons"
      ∧ (run_command_safe osA "rm -rf /" 10).2.2 = "")
    ∧ ((run_command_safe osT "cat bigfile" 10).2.1 = ""
      ∧ (run_command_safe osT "cat bigfile" 10).2.2 = "Command timed out")
    ∧ ((run_command_safe osE "nosuch" 10).2.1 = ""
      ∧ (run_command_safe osE "nosuch" 10).2.2 =
          "Error: " ++ "spawn failed") :=
  ⟨(claim_C10 10).1 osA "rm -rf /" "rm" rfl (by decide),
   (claim_C10 10).2.1 osT "cat bigfile" "cat bigfile" rfl rfl,
   (claim_C10 10).2.2 osE "nosuch" "nosuch" "spawn failed" rfl rfl⟩
theorem scanAll_cons (fs : FS) (p : String) (ps : List String)
    (acc : Finset String) :
    scanAll fs (p :: ps) acc =
      if fs.pathExists p then
        match fs.listdir p with
        | .ok entries => scanAll fs ps (scanDir fs p entries acc)
        | .permissionError => scanAll fs ps acc
        | .otherError msg => Except.error msg
      else scanAll fs ps acc := rfl

theorem mem_scanDir (fs : FS) (bin_path : String) (entries : List String)
    (acc : Finset String) (x : String) :
    x ∈ scanDir fs bin_path entries acc ↔
      x ∈ acc ∨ (x ∈ entries ∧ keepEntry fs bin_path x = true) := by
  unfold scanDir
  induction entries generalizing acc with
  | nil => simp
  | cons i is ih =>
    rw [List.foldl_cons, ih]
    by_cases hk : keepEntry fs bin_path i = true
    · rw [if_pos hk]
      constructor
      · rintro (hins | ⟨hxs, hkx⟩)
        · rcases Finset.mem_insert.mp hins with rfl | hx
          · exact Or.inr ⟨List.mem_cons_self _ _, hk⟩
          · exact Or.inl hx
        · exact Or.inr ⟨List.mem_cons_of_mem i hxs, hkx⟩
      · rintro (hx | ⟨hxi, hkx⟩)
        · exact Or.inl (Finset.mem_insert_of_mem hx)
        · rcases List.mem_cons.mp hxi with rfl | hxs
          · exact Or.inl (Finset.mem_insert_self x acc)
          · exact Or.inr ⟨hxs, hkx⟩
    · rw [if_neg hk]
      constructor
      · rintro (hx | ⟨hxs, hkx⟩)
        · exact Or.inl hx
        · exact Or.inr ⟨List.mem_cons_of_mem i hxs, hkx⟩
      · rintro (hx | ⟨hxi, hkx⟩)
        · exact Or.inl hx
        · rcases List.mem_cons.mp hxi with rfl | hxs
          · exact absurd hkx hk
          · exact Or.inr ⟨hxs, hkx⟩

theorem mem_scanAll (fs : FS) (paths : List String) :
    ∀ (acc s : Finset String), scanAll fs paths acc = Except.ok s →
    ∀ x : String, (x ∈ s ↔ x ∈ acc
      ∨ ∃ p ∈ paths, fs.pathExists p = true
        ∧ ∃ entries, fs.listdir p = ListdirResult.ok entries
          ∧ x ∈ entries ∧ keepEntry fs p x = true) := by
  induction paths with
  | nil =>
    intro acc s h x
    have hs : acc = s := Except.ok.inj h
    subst hs
    simp
  | cons p ps ih =>
    intro acc s h x
    rw [scanAll_cons] at h
    rw [List.exists_mem_cons_iff]
    by_cases he : fs.pathExists p = true
    · rw [if_pos he] at h
      cases hl : fs.listdir p with
      | ok entries =>
        rw [hl] at h
        rw [ih _ s h x, mem_scanDir]
        constructor
        · rintro ((hx | ⟨hxe, hk⟩) | ⟨q, hq, hc⟩)
          · exact Or.inl hx
          · exact Or.inr (Or.inl ⟨he, entries, rfl, hxe, hk⟩)
          · exact Or.inr (Or.inr ⟨q, hq, hc⟩)
        · rintro (hx | ⟨hpe, e2, he2, hxe, hk⟩ | ⟨q, hq, hc⟩)
          · exact Or.inl (Or.inl hx)
          · injection he2 with he2
            subst he2
            exact Or.inl (Or.inr ⟨hxe, hk⟩)
          · exact Or.inr ⟨q, hq, hc⟩
      | permissionError =>
        rw [hl] at h
        rw [ih _ s h x]
        constructor
        · rintro (hx | ⟨q, hq, hc⟩)
          · exact Or.inl hx
          · exact Or.inr (Or.inr ⟨q, hq, hc⟩)
        · rintro (hx | ⟨hpe, e2, he2, hxe, hk⟩ | ⟨q, hq, hc⟩)
          · exact Or.inl hx
          · exact ListdirResult.noConfusion he2
          · exact Or.inr ⟨q, hq, hc⟩
      | otherError msg =>
        rw [hl] at h
        exact Except.noConfusion h
    · rw [if_neg he] at h
      rw [ih _ s h x]
      constructor
      · rintro (hx | ⟨q, hq, hc⟩)
        · exact Or.inl hx
        · exact Or.inr (Or.inr ⟨q, hq, hc⟩)
      · rintro (hx | ⟨hpe, hrest⟩ | ⟨q, hq, hc⟩)
        · exact Or.inl hx
        · exact absurd hpe he
        · exact Or.inr ⟨q, hq, hc⟩

theorem get_bin_commands_ok (fs : FS) (catalog : List String)
    (h : get_bin_commands fs = Except.ok catalog) :
    ∃ s : Finset String, scanAll fs bin_paths ∅ = Except.ok s
      ∧ catalog = s.sort (· ≤ ·) := by
  unfold get_bin_commands at h
  cases hs : scanAll fs bin_paths ∅ with
  | ok s =>
    rw [hs] at h
    have h2 : Except.ok (s.sort (· ≤ ·)) = Except.ok catalog := h
    exact ⟨s, rfl, (Except.ok.inj h2).symm⟩
  | error msg =>
    rw [hs] at h
    exact Except.noConfusion h

theorem scanDir_congr (fs fs2 : FS) (p : String) (entries : List String)
    (acc : Finset String) (hif : fs.isfile = fs2.isfile)
    (hax : fs.accessX = fs2.accessX) :
    scanDir fs p entries acc = scanDir fs2 p entries acc := by
  unfold scanDir keepEntry
  rw [hif, hax]

theorem scanAll_congr (fs fs2 : FS) (paths : List String)
    (acc : Finset String)
    (hex : fs.pathExists = fs2.pathExists) (hif : fs.isfile = fs2.isfile)
    (hax : fs.accessX = fs2.accessX)
    (hld : ∀ p ∈ paths, fs.pathExists p = true →
      fs.listdir p = fs2.listdir p
      ∨ (fs.listdir p = ListdirResult.permissionError
        ∧ fs2.listdir p = ListdirResult.ok [])) :
    scanAll fs paths acc = scanAll fs2 paths acc := by
  induction paths generalizing acc with
  | nil => rfl
  | cons p ps ih =>
    rw [scanAll_cons, scanAll_cons]
    have he2 : fs2.pathExists p = fs.pathExists p := by rw [hex]
    rw [he2]
    by_cases he : fs.pathExists p = true
    · rw [if_pos he, if_pos he]
      rcases hld p (List.mem_cons_self _ _) he with heq | ⟨h1, h2⟩
      · rw [← heq]
        cases hl : fs.listdir p with
        | ok entries =>
          show scanAll fs ps (scanDir fs p entries acc) =
            scanAll fs2 ps (scanDir fs2 p entries acc)
          rw [scanDir_congr fs fs2 p entries acc hif hax]
          exact ih _ fun q hq => hld q (List.mem_cons_of_mem p hq)
        | permissionError =>
          exact ih _ fun q hq => hld q (List.mem_cons_of_mem p hq)
        | otherError msg => rfl
      · rw [h1, h2]
        exact ih _ fun q hq => hld q (List.mem_cons_of_mem p hq)
    · rw [if_neg he, if_neg he]
      exact ih _ fun q hq => hld q (List.mem_cons_of_mem p hq)

theorem scanAll_skip (fs : FS) (paths : List String) (acc : Finset String)
    (h : ∀ p ∈ paths, fs.pathExists p = false
      ∨ fs.listdir p = ListdirResult.permissionError) :
    scanAll fs paths acc = Except.ok acc := by
  induction paths generalizing acc with
  | nil => rfl
  | cons p ps ih =>
    rw [scanAll_cons]
    rcases h p (List.mem_cons_self _ _) with hp | hp
    · rw [hp, if_neg Bool.false_ne_true]
      exact ih _ fun q hq => h q (List.mem_cons_of_mem p hq)
    · by_cases he : fs.pathExists p = true
      · rw [if_pos he, hp]
        exact ih _ fun q hq => h q (List.mem_cons_of_mem p hq)
      · rw [if_neg he]
        exact ih _ fun q hq => h q (List.mem_cons_of_mem p hq)

theorem scanAll_total (fs : FS) (paths : List String) :
    (∀ p ∈ paths, fs.pathExists p = true →
      ∀ msg, fs.listdir p ≠ ListdirResult.otherError msg) →
    ∀ acc, ∃ s, scanAll fs paths acc = Except.ok s := by
  induction paths with
  | nil => exact fun _ acc => ⟨acc, rfl⟩
  | cons p ps ih =>
    intro h acc
    rw [scanAll_cons]
    by_cases he : fs.pathExists p = true
    · rw [if_pos he]
      cases hl : fs.listdir p with
      | ok entries =>
        exact ih (fun q hq => h q (List.mem_cons_of_mem p hq)) _
      | permissionError =>
        exact ih (fun q hq => h q (List.mem_cons_of_mem p hq)) acc
      | otherError msg =>
        exact absurd hl (h p (List.mem_cons_self _ _) he msg)
    · rw [if_neg he]
      exact ih (fun q hq => h q (List.mem_cons_of_mem p hq)) acc

/-- Filesystem in which only /bin exists, its listing succeeds and holds
the single executable regular file sh. -/
def fsBin : FS where
  pathExists := fun p => p == "/bin"
  listdir := fun p =>
    if p == "/bin" then ListdirResult.ok ["sh"] else ListdirResult.ok []
  isfile := fun _ => true
  accessX := fun _ => true

/-- Filesystem in which no candidate directory exists, though a listing
would return junk if it were ever consulted. -/
def fsNone : FS where
  pathExists := fun _ => false
  listdir := fun _ => ListdirResult.ok ["junk"]
  isfile := fun _ => true
  accessX := fun _ => true

/-- Same as fsNone except every listing would raise an uncaught
exception, exercising that skipped directories are never consulted. -/
def fsNone2 : FS where
  pathExists := fun _ => false
  listdir := fun _ => ListdirResult.otherError "unused"
  isfile := fun _ => true
  accessX := fun _ => true

/-- Filesystem in which /bin exists but as a regular file, so
`os.path.exists` is true yet `os.listdir` raises `NotADirectoryError`,
an exception the source does not catch. -/
def fsNotDir : FS where
  pathExists := fun p => p == "/bin"
  listdir := fun p =>
    if p == "/bin" then ListdirResult.otherError "Not a directory"
    else ListdirResult.ok []
  isfile := fun p => p == "/bin"
  accessX := fun _ => true

/-- C6: whenever discovery returns a catalog (no listing exception
propagated), that catalog is sorted lexicographically, has no duplicate
names, and each name in it is a listed entry of at least one existing
candidate directory whose listing succeeded, is a regular file there and
is executable by the current process. -/
theorem claim_C6 (fs : FS) (catalog : List String)
    (h : get_bin_commands fs = Except.ok catalog) :
    catalog.Sorted (· ≤ ·)
    ∧ catalog.Nodup
    ∧ ∀ name ∈ catalog, ∃ p ∈ bin_paths, fs.pathExists p = true
        ∧ ∃ entries, fs.listdir p = ListdirResult.ok entries
          ∧ name ∈ entries
          ∧ fs.isfile (p ++ "/" ++ name) = true
          ∧ fs.accessX (p ++ "/" ++ name) = true := by
  obtain ⟨s, hs, rfl⟩ := get_bin_commands_ok fs catalog h
  refine ⟨Finset.sort_sorted _ _, Finset.sort_nodup _ _, fun name hname => ?_⟩
  rw [Finset.mem_sort] at hname
  obtain ⟨p, hp, he, entries, hl, hxe, hk⟩ :=
    ((mem_scanAll fs bin_paths ∅ s hs name).mp hname).resolve_left
      (Finset.not_mem_empty name)
  rw [keepEntry, Bool.and_eq_true] at hk
  exact ⟨p, hp, he, entries, hl, hxe, hk.1, hk.2⟩

theorem claim_C6_witness :
    (["sh"] : List String).Sorted (· ≤ ·)
    ∧ (["sh"] : List String).Nodup
    ∧ ∀ name ∈ (["sh"] : List String), ∃ p ∈ bin_paths,
        fsBin.pathExists p = true
        ∧ ∃ entries, fsBin.listdir p = ListdirResult.ok entries
          ∧ name ∈ entries
          ∧ fsBin.isfile (p ++ "/" ++ name) = true
          ∧ fsBin.accessX (p ++ "/" ++ name) = true :=
  claim_C6 fsBin ["sh"] (by
    unfold get_bin_commands
    rw [show scanAll fsBin bin_paths ∅ = Except.ok {"sh"} from rfl]
    show Except.ok (Finset.sort (· ≤ ·) {"sh"}) = Except.ok ["sh"]
    rw [Finset.sort_singleton])

/-- C7 counterexample: a candidate path that exists as a regular file
makes the listing raise an exception the source does not catch, so
discovery fails outright instead of returning a catalog — refuting
"never fails outright for any filesystem state". -/
theorem claim_C7_counterexample :
    fsNotDir.pathExists "/bin" = true
    ∧ get_bin_commands fsNotDir = Except.error "Not a directory" :=
  ⟨rfl, rfl⟩

/-- C7 as amended: discovery silently skips a candidate directory that
does not exist and one whose listing raises PermissionError (the catalog
depends only on the surviving listings, a permission-denied directory
contributing exactly as an empty one); it returns the empty catalog when
every candidate is missing or permission-denied; and it cannot fail as
long as no listing of an existing candidate raises an exception other
than PermissionError.  A listing exception of another class propagates,
so discovery is not failure-free on every filesystem state. -/
theorem claim_C7_amended :
    (∀ fs fs2 : FS, fs.pathExists = fs2.pathExists →
      fs.isfile = fs2.isfile → fs.accessX = fs2.accessX →
      (∀ p ∈ bin_paths, fs.pathExists p = true →
        fs.listdir p = fs2.listdir p
        ∨ (fs.listdir p = ListdirResult.permissionError
          ∧ fs2.listdir p = ListdirResult.ok [])) →
      get_bin_commands fs = get_bin_commands fs2)
    ∧ (∀ fs : FS,
      (∀ p ∈ bin_paths, fs.pathExists p = false
        ∨ fs.listdir p = ListdirResult.permissionError) →
      get_bin_commands fs = Except.ok [])
    ∧ (∀ fs : FS,
      (∀ p ∈ bin_paths, fs.pathExists p = true →
        ∀ msg, fs.listdir p ≠ ListdirResult.otherError msg) →
      ∃ catalog, get_bin_commands fs = Except.ok catalog) := by
  refine ⟨fun fs fs2 hex hif hax hld => ?_, fun fs h => ?_, fun fs h => ?_⟩
  · unfold get_bin_commands
    rw [scanAll_congr fs fs2 bin_paths ∅ hex hif hax hld]
  · unfold get_bin_commands
    rw [scanAll_skip fs bin_paths ∅ h]
    show Except.ok (Finset.sort (· ≤ ·) ∅) = Except.ok []
    rw [Finset.sort_empty]
  · obtain ⟨s, hs⟩ := scanAll_total fs bin_paths h ∅
    refine ⟨s.sort (· ≤ ·), ?_⟩
    unfold get_bin_commands
    rw [hs]
    rfl

theorem claim_C7_amended_witness :
    get_bin_commands fsNone = get_bin_commands fsNone2
    ∧ get_bin_commands fsNone = Except.ok []
    ∧ ∃ catalog, get_bin_commands fsBin = Except.ok catalog :=
  ⟨claim_C7_amended.1 fsNone fsNone2 rfl rfl rfl
      (fun p hp hex => absurd hex Bool.false_ne_true),
    claim_C7_amended.2.1 fsNone fun p hp => Or.inl rfl,
    claim_C7_amended.2.2 fsBin (by
      intro p hp hpe msg
      fin_cases hp <;> exact fun hc => ListdirResult.noConfusion hc)⟩
/-- An attempt outcome on which the help loop moves on to the next flag:
a timeout, an exception, or a completion that neither satisfies the
stdout test (exit code 0 and non-blank stdout) nor has non-blank stderr. -/
def helpSkips : RunOutcome → Prop
  | .completed rc out err =>
      ¬(rc = 0 ∧ hasContent out = true) ∧ hasContent err = false
  | .timedOut => True
  | .error _ => True

/-- An attempt outcome on which the help loop stops and returns s: a
completion with exit code 0 and non-blank stdout returning that stdout, or
a completion failing the stdout test but with non-blank stderr returning
that stderr. -/
def helpGives : RunOutcome → String → Prop
  | .completed rc out err, s =>
      (rc = 0 ∧ hasContent out = true ∧ s = out)
      ∨ (¬(rc = 0 ∧ hasContent out = true) ∧ hasContent err = true ∧ s = err)
  | .timedOut, _ => False
  | .error _, _ => False

theorem helpLoop_gives (os : String → Nat → RunOutcome)
    (command help_opt : String) (rest : List String) (s : String)
    (h : helpGives (os (helpCmd command help_opt) 5) s) :
    helpLoop os command (help_opt :: rest) = s := by
  cases ho : os (helpCmd command help_opt) 5 with
  | completed rc out err =>
    rw [ho] at h
    simp only [helpLoop, ho]
    rcases h with ⟨h0, hout, rfl⟩ | ⟨hn, herr, rfl⟩
    · rw [if_pos ⟨h0, hout⟩]
    · rw [if_neg hn, if_pos herr]
  | timedOut => rw [ho] at h; simp [helpGives] at h
  | error msg => rw [ho] at h; simp [helpGives] at h

theorem helpLoop_skips (os : String → Nat → RunOutcome)
    (command help_opt : String) (rest : List String)
    (h : helpSkips (os (helpCmd command help_opt) 5)) :
    helpLoop os command (help_opt :: rest) = helpLoop os command rest := by
  cases ho : os (helpCmd command help_opt) 5 with
  | completed rc out err =>
    rw [ho] at h
    have h2 : ¬(rc = 0 ∧ hasContent out = true) ∧ hasContent err = false := h
    simp only [helpLoop, ho]
    rw [if_neg h2.1, if_neg (by simp [h2.2])]
  | timedOut => simp only [helpLoop, ho]
  | error msg => simp only [helpLoop, ho]

theorem helpCmd_long (command : String) :
    helpCmd command "--help" = command ++ " --help" := by
  unfold helpCmd
  rw [if_neg (by decide), String.append_assoc]
  rfl

theorem helpCmd_short (command : String) :
    helpCmd command "-h" = command ++ " -h" := by
  unfold helpCmd
  rw [if_neg (by decide), String.append_assoc]
  rfl

theorem helpCmd_builtin (command : String) :
    helpCmd command "help" = "help " ++ command := by
  unfold helpCmd
  rw [if_pos rfl]

/-- Oracle under which the first help attempt completes with empty stdout
but non-empty stderr while the second attempt completes with non-empty
stdout. -/
def osHelp : String → Nat → RunOutcome := fun c _ =>
  if c = "foo --help" then RunOutcome.completed 0 "" "first stderr"
  else if c = "foo -h" then RunOutcome.completed 0 "second stdout" ""
  else RunOutcome.error "no such attempt"

/-- C8 counterexample: under osHelp the attempt foo -h yields the
non-empty stdout "second stdout", so the claim requires the help lookup to
return that stdout, yet get_command_help returns the stderr of the first attempt, "first stderr" — a non-empty stderr is returned before the stdout of any later attempt has been tried. -/
theorem claim_C8_counterexample :
    get_command_help osHelp "foo" = "first stderr"
    ∧ osHelp ("foo" ++ " -h") 5 = RunOutcome.completed 0 "second stdout" ""
    ∧ ("first stderr" : String) ≠ "second stdout" :=
  ⟨rfl, rfl, by decide⟩

/-- C8 as amended: getHelp tries, in order, command --help, command -h and
help command, each under timeout 5; at the first attempt that completes,
it returns the stdout of that attempt when the exit code is 0 and the
stripped stdout is non-empty, otherwise the stderr of that attempt when
the stripped stderr is non-empty; otherwise (including a timeout or an exception) it
moves to the next attempt, and after all three attempts fail it returns
the fixed string "No help information available". -/
theorem claim_C8_amended (os : String → Nat → RunOutcome)
    (command : String) :
    (∀ s, helpGives (os (command ++ " --help") 5) s →
      get_command_help os command = s)
    ∧ (helpSkips (os (command ++ " --help") 5) →
      ∀ s, helpGives (os (command ++ " -h") 5) s →
      get_command_help os command = s)
    ∧ (helpSkips (os (command ++ " --help") 5) →
      helpSkips (os (command ++ " -h") 5) →
      ∀ s, helpGives (os ("help " ++ command) 5) s →
      get_command_help os command = s)
    ∧ (helpSkips (os (command ++ " --help") 5) →
      helpSkips (os (command ++ " -h") 5) →
      helpSkips (os ("help " ++ command) 5) →
      get_command_help os command = "No help information available") := by
  rw [← helpCmd_long, ← helpCmd_short, ← helpCmd_builtin]
  unfold get_command_help help_options
  refine ⟨fun s h1 => ?_, fun h1 s h2 => ?_, fun h1 h2 s h3 => ?_,
    fun h1 h2 h3 => ?_⟩
  · exact helpLoop_gives os command "--help" _ s h1
  · rw [helpLoop_skips os command "--help" _ h1]
    exact helpLoop_gives os command "-h" _ s h2
  · rw [helpLoop_skips os command "--help" _ h1,
      helpLoop_skips os command "-h" _ h2]
    exact helpLoop_gives os command "help" _ s h3
  · rw [helpLoop_skips os command "--help" _ h1,
      helpLoop_skips os command "-h" _ h2,
      helpLoop_skips os command "help" _ h3]
    rfl

theorem claim_C8_amended_witness :
    get_command_help osHelp "foo" = "first stderr"
    ∧ get_command_help osA "bar" = "No help information available" :=
  ⟨(claim_C8_amended osHelp "foo").1 "first stderr"
      (Or.inr ⟨by decide, by decide, rfl⟩),
    (claim_C8_amended osA "bar").2.2.2 ⟨by decide, rfl⟩ ⟨by decide, rfl⟩
      ⟨by decide, rfl⟩⟩
